import Mathlib

/-!
Shallow embedding of the job-tracker pipeline (src/tracker.py, src/storage.py)
and verification of its specification claims.

Conventions of the embedding:
* Python strings are Lean `String`s; Python's truthiness test `if not s` on a
  string is the emptiness test.
* Python dictionaries with optional keys become structures with `Option` fields.
* Network and file I/O is modelled by passing the observed response / file
  content as an explicit argument.
* Python code that can raise an uncaught exception is modelled in `Except`:
  `.error` means an exception escapes the function's boundary.
-/

namespace JobTracker

/-! ### String helpers (Python `in`, `str.lower`, `str.title`, `str.replace`) -/

/-- Test `leadMatch sub l` : does `l` start with `sub`? (both as char lists) -/
def leadMatch : List Char → List Char → Bool
  | [], _ => true
  | _ :: _, [] => false
  | a :: as, b :: bs => a == b && leadMatch as bs

/-- Test `hasSub sub l` : does `sub` occur contiguously inside `l`?
Mirrors Python's `sub in l` on strings. -/
def hasSub (sub : List Char) : List Char → Bool
  | [] => sub.isEmpty
  | c :: rest => leadMatch sub (c :: rest) || hasSub sub rest

/-- Python `needle in hay` for strings. -/
def strContains (hay needle : String) : Bool :=
  hasSub needle.data hay.data

/-- Python `str.lower()` (the source only ever lowercases ASCII). -/
def lowerStr (s : String) : String :=
  ⟨s.data.map Char.toLower⟩

/-! ### `JobTracker.is_us_location` (src/tracker.py lines 36-80) -/

/-- The `us_indicators` list from `is_us_location`, verbatim. -/
def us_indicators : List String :=
  ["united states", "usa", "u.s.", "us ",
   "remote", "remote us", "remote - us",
   "california", "ca", "san francisco", "sf", "bay area",
   "new york", "ny", "nyc", "manhattan",
   "washington", "seattle", "wa",
   "texas", "tx", "austin", "dallas",
   "colorado", "co", "denver",
   "massachusetts", "ma", "boston",
   "illinois", "il", "chicago",
   "florida", "fl", "miami",
   "oregon", "or", "portland",
   "georgia", "ga", "atlanta"]

/-- The `non_us_indicators` list from `is_us_location`, verbatim. -/
def non_us_indicators : List String :=
  ["london", "uk", "united kingdom", "england",
   "canada", "toronto", "vancouver",
   "europe", "emea", "apac", "asia",
   "india", "bangalore", "mumbai",
   "singapore", "australia", "sydney",
   "germany", "berlin", "france", "paris"]

/-- Method `JobTracker.is_us_location`.  `if not location: return True`; then the two
`for` loops with early `return` are the two `List.any` tests (non-US first),
and the final `return False` is the last branch. -/
def is_us_location (location : String) : Bool :=
  if location = "" then true
  else
    let location_lower := lowerStr location
    if non_us_indicators.any (fun ind => strContains location_lower ind) then false
    else if us_indicators.any (fun ind => strContains location_lower ind) then true
    else false

/-! ### `JobStorage` (src/storage.py)

The Python `set` of seen ids is modelled as a duplicate-free `List String`
(`insertId` adds an element only when absent, so `List.length` is the set's
cardinality).  The backing file is modelled by a write log: `save_seen_ids`
prepends the full current set, mirroring the total rewrite that
`json.dump({'seen_ids': list(self.seen_ids)}, f)` performs. -/

/-- State of a `JobStorage` instance together with its backing file. -/
structure StoreState where
  seen : List String
  /-- History of file writes, most recent first; each entry is the full
  persisted id set of one `save_seen_ids` call. -/
  writes : List (List String)
deriving DecidableEq, Repr

/-- Add one element to the modelled Python set (no-op when present). -/
def insertId (s : List String) (x : String) : List String :=
  if s.contains x then s else s ++ [x]

/-- Python `self.seen_ids.update(job_ids)`. -/
def updateSeen (s : List String) (ids : List String) : List String :=
  ids.foldl insertId s

/-- Method `JobStorage.save_seen_ids` (lines 40-47): one full, synchronous rewrite of
the backing file with the entire current set. -/
def save_seen_ids (st : StoreState) : StoreState :=
  { st with writes := st.seen :: st.writes }

/-- Method `JobStorage.add_seen_ids` (lines 49-57): merge `job_ids` into the
in-memory set; persist if and only if the set's size strictly increased. -/
def add_seen_ids (job_ids : List String) (st : StoreState) : StoreState :=
  let before_count := st.seen.length
  let seen' := updateSeen st.seen job_ids
  let after_count := seen'.length
  let st' : StoreState := { st with seen := seen' }
  if before_count < after_count then save_seen_ids st' else st'

/-- A normalized posting as consumed by the dedup layer: a dict whose `id`
key may be absent (`none`); `payload` stands for all the remaining fields. -/
structure Job where
  id : Option String
  payload : String
deriving DecidableEq, Repr

/-- Python truthiness of `job.get('id')`: present and non-empty. -/
def jobIdTruthy (j : Job) : Bool :=
  match j.id with
  | none => false
  | some jid => !(jid = "")

/-- The id string of a job that has one (`""` as a dummy otherwise). -/
def getIdStr (j : Job) : String :=
  j.id.getD ""

/-- Loop body of `find_new_jobs`: the accumulator is `(new_jobs, new_ids)`;
`if not job_id: continue`, then `if job_id not in self.seen_ids` appends to
both lists. -/
def findNewStep (st : StoreState) (acc : List Job × List String) (job : Job) :
    List Job × List String :=
  match job.id with
  | none => acc
  | some job_id =>
    if job_id = "" then acc
    else if st.seen.contains job_id then acc
    else (acc.1 ++ [job], acc.2 ++ [job_id])

/-- Method `JobStorage.find_new_jobs` (lines 59-90): single pass over the batch
testing membership against the seen set as of call time, then one
`add_seen_ids` commit of all newly found ids (skipped when there are none). -/
def find_new_jobs (st : StoreState) (jobs : List Job) : List Job × StoreState :=
  let r := jobs.foldl (findNewStep st) ([], [])
  if r.2.isEmpty then (r.1, st) else (r.1, add_seen_ids r.2 st)

/-- Predicate deciding whether `find_new_jobs` run on store `st` treats a job
as new: its id is truthy and not in the seen set at call time. -/
def isNewJob (st : StoreState) (j : Job) : Bool :=
  match j.id with
  | none => false
  | some jid => !(jid = "") && !(st.seen.contains jid)

/-! ### `JobStorage.load_seen_ids` (src/storage.py lines 24-38)

The backing file's observed state.  `json.load` failures and I/O failures are
the two caught exception classes; a file whose content is valid JSON but not
an object makes `data.get` raise `AttributeError`, and a `seen_ids` value that
is not iterable makes `set(...)` raise `TypeError` — neither is caught. -/

/-- The value found under the `seen_ids` key of the parsed JSON object. -/
inductive SeenIdsValue where
  /-- A JSON array of strings: `set(...)` succeeds. -/
  | strList (ids : List String)
  /-- A non-iterable JSON value (number, boolean, null): `set(...)` raises. -/
  | nonIterable
deriving DecidableEq, Repr

/-- What reading and parsing the storage file can yield. -/
inductive FileContent where
  /-- Python `os.path.exists` is false. -/
  | absent
  /-- Opening or reading raises `IOError`. -/
  | ioError
  /-- Python `json.load` raises `json.JSONDecodeError`. -/
  | invalidJson
  /-- Valid JSON whose top level is not an object (list, string, number...). -/
  | jsonNonObject
  /-- Valid JSON object; `seenIds` is the optional `seen_ids` field. -/
  | jsonObject (seenIds : Option SeenIdsValue)
deriving DecidableEq, Repr

/-- Uncaught Python exceptions escaping `load_seen_ids`. -/
inductive PyError where
  /-- Raised by `data.get` on a non-dict. -/
  | attributeError
  /-- Raised by `set(...)` of a non-iterable. -/
  | typeError
deriving DecidableEq, Repr

/-- Method `JobStorage.load_seen_ids`: `.ok` is the returned set (as a duplicate-free
list), `.error` an exception escaping the method. -/
def load_seen_ids (fc : FileContent) : Except PyError (List String) :=
  match fc with
  | .absent => .ok []
  | .ioError => .ok []
  | .invalidJson => .ok []
  | .jsonNonObject => .error .attributeError
  | .jsonObject none => .ok []
  | .jsonObject (some (.strList ids)) => .ok (updateSeen [] ids)
  | .jsonObject (some .nonIterable) => .error .typeError

/-! ### Source adapters (src/tracker.py lines 82-140)

A fetch's interaction with the network is modelled by passing the observed
response.  `requests.RequestException` (connection error, timeout,
`raise_for_status`, and `response.json()` decode failure — requests'
`JSONDecodeError` is a `RequestException` subclass) is the caught class and is
modelled as `.failure`.  `job['id']` is a raw subscript: a missing `id` key
raises `KeyError`, which is not caught, so the adapters are `Except`-valued
with `.error` meaning an exception escapes the method. -/

/-- A normalized posting dictionary as built by the adapters. -/
structure Posting where
  id : String
  title : String
  company : String
  url : String
  location : String
  source : String
deriving DecidableEq, Repr

/-- Python `str.title()` restricted to what the source feeds it: a letter
preceded by a non-letter is uppercased, a letter preceded by a letter is
lowercased. -/
def pyTitleAux : List Char → Bool → List Char
  | [], _ => []
  | c :: rest, prevAlpha =>
    if c.isAlpha then
      (if prevAlpha then c.toLower else c.toUpper) :: pyTitleAux rest true
    else
      c :: pyTitleAux rest false

/-- Python `board_id.replace('-', ' ')`: with a one-character pattern this is a
character-wise substitution. -/
def dashToSpace (s : String) : String :=
  ⟨s.data.map (fun c => if c = '-' then ' ' else c)⟩

/-- Python `board_id.replace('-', ' ').title()` — the `company` field. -/
def companyName (board_id : String) : String :=
  ⟨pyTitleAux (dashToSpace board_id).data false⟩

/-- The id built at src/tracker.py line 100: `f"gh_{board_id}_{job['id']}"`
(the native id rendered as a string). -/
def ghId (board_id native_id : String) : String :=
  "gh_" ++ board_id ++ "_" ++ native_id

/-- The id built at src/tracker.py line 127: `f"lv_{company_id}_{job['id']}"`. -/
def lvId (company_id native_id : String) : String :=
  "lv_" ++ company_id ++ "_" ++ native_id

/-- One element of the Greenhouse response's `jobs` array.  `location` is the
nested `location` object: outer `Option` for the `location` key, inner for its
`name` key (`job.get('location', {}).get('name', 'Remote')`). -/
structure GhRawJob where
  id : Option String
  title : Option String
  location : Option (Option String)
  absolute_url : Option String
deriving DecidableEq, Repr

/-- The resolved location string of a raw Greenhouse item. -/
def ghLocation (j : GhRawJob) : String :=
  match j.location with
  | none => "Remote"
  | some none => "Remote"
  | some (some name) => name

/-- One element of the Lever response array.  `categoriesLocation` models
`job.get('categories', {}).get('location', 'Remote')` the same way. -/
structure LvRawJob where
  id : Option String
  text : Option String
  hostedUrl : Option String
  categoriesLocation : Option (Option String)
deriving DecidableEq, Repr

/-- The resolved location string of a raw Lever item. -/
def lvLocation (j : LvRawJob) : String :=
  match j.categoriesLocation with
  | none => "Remote"
  | some none => "Remote"
  | some (some loc) => loc

/-- Observed outcome of the Greenhouse HTTP round trip.  On success the body
is a JSON object; `jobs` is its optional `jobs` array
(`jobs_data.get('jobs', [])`). -/
inductive GhResponse where
  /-- Any `requests.RequestException`: connection failure, timeout, HTTP
  error status, JSON decode failure. -/
  | failure
  | success (jobs : Option (List GhRawJob))
deriving DecidableEq, Repr

/-- Observed outcome of the Lever HTTP round trip: on success the body is a
bare JSON array. -/
inductive LvResponse where
  | failure
  | success (jobs : List LvRawJob)
deriving DecidableEq, Repr

/-- Exception `KeyError` raised by `job['id']`. -/
inductive FetchError where
  | keyError
deriving DecidableEq, Repr

/-- The Greenhouse loop body (lines 92-106): resolve the location, drop
non-US items (`continue` happens before `job['id']` is evaluated), then build
the posting — `job['id']` raises `KeyError` when the key is absent. -/
def ghMapJobs (board_id : String) : List GhRawJob → Except FetchError (List Posting)
  | [] => .ok []
  | job :: rest =>
    let location := ghLocation job
    if is_us_location location = false then
      ghMapJobs board_id rest
    else
      match job.id with
      | none => .error .keyError
      | some native_id => do
        let tail ← ghMapJobs board_id rest
        .ok ({ id := ghId board_id native_id,
               title := job.title.getD "N/A",
               company := companyName board_id,
               url := job.absolute_url.getD "",
               location := location,
               source := "greenhouse" } :: tail)

/-- Method `JobTracker.fetch_greenhouse_jobs` (lines 82-113): a `RequestException`
is caught and yields `[]`; otherwise the `jobs` array is mapped. -/
def fetch_greenhouse_jobs (board_id : String) (resp : GhResponse) :
    Except FetchError (List Posting) :=
  match resp with
  | .failure => .ok []
  | .success jobs_data => ghMapJobs board_id (jobs_data.getD [])

/-- The Lever loop body (lines 125-133): every item is mapped, with no
location filter; `job['id']` raises `KeyError` when the key is absent. -/
def lvMapJobs (company_id : String) : List LvRawJob → Except FetchError (List Posting)
  | [] => .ok []
  | job :: rest =>
    match job.id with
    | none => .error .keyError
    | some native_id => do
      let tail ← lvMapJobs company_id rest
      .ok ({ id := lvId company_id native_id,
             title := job.text.getD "N/A",
             company := companyName company_id,
             url := job.hostedUrl.getD "",
             location := lvLocation job,
             source := "lever" } :: tail)

/-- Method `JobTracker.fetch_lever_jobs` (lines 115-140). -/
def fetch_lever_jobs (company_id : String) (resp : LvResponse) :
    Except FetchError (List Posting) :=
  match resp with
  | .failure => .ok []
  | .success jobs_data => lvMapJobs company_id jobs_data

/-- The static `self.companies` configuration (src/tracker.py lines 17-33):
company key, board type, external id. -/
def companies : List (String × String × String) :=
  [("airbnb", "greenhouse", "airbnb"),
   ("stripe", "greenhouse", "stripe"),
   ("dropbox", "greenhouse", "dropbox"),
   ("coinbase", "greenhouse", "coinbase"),
   ("robinhood", "greenhouse", "robinhood"),
   ("doordash", "greenhouse", "doordash"),
   ("instacart", "greenhouse", "instacart"),
   ("discord", "greenhouse", "discord"),
   ("ramp", "greenhouse", "ramp"),
   ("plaid", "greenhouse", "plaid"),
   ("notion", "greenhouse", "notion"),
   ("figma", "greenhouse", "figma"),
   ("airtable", "greenhouse", "airtable"),
   ("databricks", "greenhouse", "databricks")]


/-! ### Helper lemmas -/

theorem containsStr_iff {s : List String} {x : String} :
    s.contains x = true ↔ x ∈ s := by
  simp [List.contains]

theorem isNewJob_eq (st : StoreState) (j : Job) :
    isNewJob st j = (jobIdTruthy j && !(st.seen.contains (getIdStr j))) := by
  cases h : j.id with
  | none => simp [isNewJob, jobIdTruthy, h]
  | some jid => simp [isNewJob, jobIdTruthy, getIdStr, h]

theorem findNew_foldl (st : StoreState) (jobs : List Job) :
    ∀ (a : List Job) (b : List String),
      jobs.foldl (findNewStep st) (a, b) =
        (a ++ jobs.filter (isNewJob st),
         b ++ (jobs.filter (isNewJob st)).filterMap Job.id) := by
  induction jobs with
  | nil => simp
  | cons j rest ih =>
    intro a b
    simp only [List.foldl_cons]
    cases h : j.id with
    | none =>
      have hstep : findNewStep st (a, b) j = (a, b) := by
        simp [findNewStep, h]
      have hnew : isNewJob st j = false := by simp [isNewJob, h]
      rw [hstep, ih, List.filter_cons, hnew]
      simp
    | some jid =>
      by_cases he : jid = ""
      · have hstep : findNewStep st (a, b) j = (a, b) := by
          simp [findNewStep, h, he]
        have hnew : isNewJob st j = false := by simp [isNewJob, h, he]
        rw [hstep, ih, List.filter_cons, hnew]
        simp
      · by_cases hs : st.seen.contains jid = true
        · have hs' : jid ∈ st.seen := containsStr_iff.mp hs
          have hstep : findNewStep st (a, b) j = (a, b) := by
            simp [findNewStep, h, he, hs']
          have hnew : isNewJob st j = false := by simp [isNewJob, h, he, hs']
          rw [hstep, ih, List.filter_cons, hnew]
          simp
        · have hs' : jid ∉ st.seen := fun hm => hs (containsStr_iff.mpr hm)
          have hstep : findNewStep st (a, b) j = (a ++ [j], b ++ [jid]) := by
            simp [findNewStep, h, he, hs']
          have hnew : isNewJob st j = true := by simp [isNewJob, h, he, hs']
          rw [hstep, ih, List.filter_cons, hnew]
          simp [List.filterMap_cons, h]

theorem add_seen_ids_seen (ids : List String) (st : StoreState) :
    (add_seen_ids ids st).seen = updateSeen st.seen ids := by
  simp only [add_seen_ids, save_seen_ids]
  split <;> rfl

theorem add_seen_ids_writes_of_lt {ids : List String} {st : StoreState}
    (h : st.seen.length < (updateSeen st.seen ids).length) :
    (add_seen_ids ids st).writes = updateSeen st.seen ids :: st.writes := by
  simp only [add_seen_ids, save_seen_ids]
  rw [if_pos h]

theorem add_seen_ids_writes_of_not_lt {ids : List String} {st : StoreState}
    (h : ¬ st.seen.length < (updateSeen st.seen ids).length) :
    (add_seen_ids ids st).writes = st.writes := by
  simp only [add_seen_ids, save_seen_ids]
  rw [if_neg h]

theorem find_new_jobs_eq (st : StoreState) (jobs : List Job) :
    find_new_jobs st jobs =
      (jobs.filter (isNewJob st),
       if ((jobs.filter (isNewJob st)).filterMap Job.id).isEmpty then st
       else add_seen_ids ((jobs.filter (isNewJob st)).filterMap Job.id) st) := by
  show (if (jobs.foldl (findNewStep st) ([], [])).2.isEmpty
          then ((jobs.foldl (findNewStep st) ([], [])).1, st)
          else ((jobs.foldl (findNewStep st) ([], [])).1,
                add_seen_ids (jobs.foldl (findNewStep st) ([], [])).2 st)) = _
  rw [findNew_foldl st jobs [] []]
  simp only [List.nil_append]
  split <;> rfl

theorem find_new_jobs_fst (st : StoreState) (jobs : List Job) :
    (find_new_jobs st jobs).1 = jobs.filter (isNewJob st) := by
  rw [find_new_jobs_eq]

theorem updateSeen_nil (s : List String) : updateSeen s [] = s := rfl

theorem find_new_jobs_snd_seen (st : StoreState) (jobs : List Job) :
    (find_new_jobs st jobs).2.seen =
      updateSeen st.seen ((jobs.filter (isNewJob st)).filterMap Job.id) := by
  rw [find_new_jobs_eq]
  by_cases h : ((jobs.filter (isNewJob st)).filterMap Job.id).isEmpty
  · simp only [h, if_true]
    rw [List.isEmpty_iff.mp h, updateSeen_nil]
  · simp only [h, if_false]
    exact add_seen_ids_seen _ _

theorem mem_insertId_of_mem {s : List String} {y : String} (x : String)
    (h : y ∈ s) : y ∈ insertId s x := by
  unfold insertId
  split
  · exact h
  · exact List.mem_append_left _ h

theorem mem_insertId_self (s : List String) (x : String) : x ∈ insertId s x := by
  by_cases hc : x ∈ s
  · exact mem_insertId_of_mem x hc
  · unfold insertId
    rw [if_neg (fun hb => hc (containsStr_iff.mp hb))]
    exact List.mem_append_right _ (List.mem_singleton.mpr rfl)

theorem mem_insertId_cases {s : List String} {x y : String}
    (h : y ∈ insertId s x) : y ∈ s ∨ y = x := by
  unfold insertId at h
  split at h
  · exact Or.inl h
  · rcases List.mem_append.mp h with h1 | h2
    · exact Or.inl h1
    · exact Or.inr (List.mem_singleton.mp h2)

theorem mem_updateSeen_of_mem {s : List String} {y : String} (ids : List String)
    (h : y ∈ s) : y ∈ updateSeen s ids := by
  induction ids generalizing s with
  | nil => exact h
  | cons i rest ih => exact ih (mem_insertId_of_mem i h)

theorem mem_updateSeen_of_mem_ids {ids : List String} {x : String}
    (s : List String) (h : x ∈ ids) : x ∈ updateSeen s ids := by
  induction ids generalizing s with
  | nil => cases h
  | cons i rest ih =>
    rcases List.mem_cons.mp h with h1 | h2
    · subst h1
      exact mem_updateSeen_of_mem rest (mem_insertId_self s x)
    · show x ∈ updateSeen (insertId s i) rest
      exact ih (insertId s i) h2

theorem length_le_insertId (s : List String) (x : String) :
    s.length ≤ (insertId s x).length := by
  unfold insertId
  split
  · exact Nat.le_refl _
  · simp

theorem length_insertId_of_not_mem {s : List String} {x : String}
    (h : x ∉ s) : (insertId s x).length = s.length + 1 := by
  unfold insertId
  rw [if_neg (fun hb => h (containsStr_iff.mp hb))]
  simp

theorem length_le_updateSeen (s : List String) (ids : List String) :
    s.length ≤ (updateSeen s ids).length := by
  induction ids generalizing s with
  | nil => exact Nat.le_refl _
  | cons i rest ih =>
    exact Nat.le_trans (length_le_insertId s i) (ih (insertId s i))

theorem insertId_of_mem {s : List String} {x : String} (h : x ∈ s) :
    insertId s x = s := by
  unfold insertId
  rw [if_pos (containsStr_iff.mpr h)]

theorem updateSeen_of_all_mem {s : List String} {ids : List String}
    (h : ∀ x ∈ ids, x ∈ s) : updateSeen s ids = s := by
  induction ids with
  | nil => rfl
  | cons i rest ih =>
    show updateSeen (insertId s i) rest = s
    rw [insertId_of_mem (h i (List.mem_cons_self i rest))]
    exact ih (fun x hx => h x (List.mem_cons_of_mem i hx))

theorem length_lt_updateSeen {s : List String} {ids : List String} {x : String}
    (hx : x ∈ ids) (hns : x ∉ s) : s.length < (updateSeen s ids).length := by
  induction ids generalizing s with
  | nil => cases hx
  | cons i rest ih =>
    show s.length < (updateSeen (insertId s i) rest).length
    rcases List.mem_cons.mp hx with h1 | h2
    · subst h1
      calc s.length < (insertId s x).length := by
            rw [length_insertId_of_not_mem hns]; omega
        _ ≤ (updateSeen (insertId s x) rest).length := length_le_updateSeen _ _
    · by_cases hxi : x ∈ insertId s i
      · have hx_eq : x = i := (mem_insertId_cases hxi).resolve_left hns
        subst hx_eq
        calc s.length < (insertId s x).length := by
              rw [length_insertId_of_not_mem hns]; omega
          _ ≤ (updateSeen (insertId s x) rest).length := length_le_updateSeen _ _
      · calc s.length ≤ (insertId s i).length := length_le_insertId s i
          _ < (updateSeen (insertId s i) rest).length := ih h2 hxi


theorem count_le_count_filterMap_id (l : List Job) (j : Job) (s : String)
    (h : j.id = some s) : l.count j ≤ (l.filterMap Job.id).count s := by
  induction l with
  | nil => simp
  | cons x rest ih =>
    by_cases hx : x = j
    · subst hx
      rw [List.filterMap_cons, h]
      simp only [List.count_cons]
      simp only [beq_self_eq_true, if_true]
      omega
    · rw [List.filterMap_cons]
      have hcj : ((x :: rest).count j) = rest.count j := by
        simp [List.count_cons, Ne.symm hx, fun hh : j = x => hx hh.symm]
      rw [hcj]
      cases hid : x.id with
      | none => exact ih
      | some s2 =>
        have : (rest.filterMap Job.id).count s ≤ ((s2 :: rest.filterMap Job.id)).count s := by
          simp only [List.count_cons]
          omega
        exact Nat.le_trans ih this

theorem ghMapJobs_ok_us {b : String} {raws : List GhRawJob} {ps : List Posting}
    (h : ghMapJobs b raws = .ok ps) : ∀ p ∈ ps, is_us_location p.location = true := by
  induction raws generalizing ps with
  | nil =>
    simp only [ghMapJobs] at h
    cases h
    simp
  | cons job rest ih =>
    simp only [ghMapJobs] at h
    by_cases hloc : is_us_location (ghLocation job) = false
    · rw [if_pos hloc] at h
      exact ih h
    · rw [if_neg hloc] at h
      cases hid : job.id with
      | none =>
        rw [hid] at h
        cases h
      | some nid =>
        rw [hid] at h
        cases hrest : ghMapJobs b rest with
        | error e =>
          rw [hrest] at h
          cases h
        | ok tail =>
          rw [hrest] at h
          simp only [Except.bind] at h
          cases h
          intro p hp
          rcases List.mem_cons.mp hp with h1 | h2
          · subst h1
            simpa using eq_true_of_ne_false hloc
          · exact ih hrest p h2

theorem lvMapJobs_ok_len {c : String} {raws : List LvRawJob} {ps : List Posting}
    (h : lvMapJobs c raws = .ok ps) : ps.length = raws.length := by
  induction raws generalizing ps with
  | nil =>
    simp only [lvMapJobs] at h
    cases h
    rfl
  | cons job rest ih =>
    simp only [lvMapJobs] at h
    cases hid : job.id with
    | none =>
      rw [hid] at h
      cases h
    | some nid =>
      rw [hid] at h
      cases hrest : lvMapJobs c rest with
      | error e =>
        rw [hrest] at h
        cases h
      | ok tail =>
        rw [hrest] at h
        simp only [Except.bind] at h
        cases h
        simp [ih hrest]

theorem underscore_split : ∀ (b1 n1 b2 n2 : List Char), (Char.ofNat 95) ∉ b1 →
    (Char.ofNat 95) ∉ b2 → b1 ++ (Char.ofNat 95) :: n1 = b2 ++ (Char.ofNat 95) :: n2 →
    b1 = b2 ∧ n1 = n2 := by
  intro b1
  induction b1 with
  | nil =>
    intro n1 b2 n2 h1 h2 heq
    cases b2 with
    | nil =>
      simp only [List.nil_append] at heq
      exact ⟨rfl, (List.cons.injEq _ _ _ _ ▸ heq).2⟩
    | cons c cs =>
      simp only [List.nil_append, List.cons_append, List.cons.injEq] at heq
      exact absurd (heq.1 ▸ List.mem_cons_self c cs) (heq.1 ▸ h2)
  | cons a as ih =>
    intro n1 b2 n2 h1 h2 heq
    cases b2 with
    | nil =>
      simp only [List.cons_append, List.nil_append, List.cons.injEq] at heq
      exact absurd (heq.1 ▸ List.mem_cons_self a as) h1
    | cons c cs =>
      simp only [List.cons_append, List.cons.injEq] at heq
      have h1' : (Char.ofNat 95) ∉ as := fun hm => h1 (List.mem_cons_of_mem a hm)
      have h2' : (Char.ofNat 95) ∉ cs := fun hm => h2 (List.mem_cons_of_mem c hm)
      obtain ⟨hb, hn⟩ := ih n1 cs n2 h1' h2' heq.2
      exact ⟨by rw [heq.1, hb], hn⟩

/-! ### Claim theorems -/

theorem jobId_of_truthy {j : Job} (h : jobIdTruthy j = true) :
    j.id = some (getIdStr j) := by
  cases hj : j.id with
  | none => simp [jobIdTruthy, hj] at h
  | some s => simp [getIdStr, hj]

/-- Claim C1: `find_new_jobs` first drops postings whose `id` is missing or
falsy, then partitions the rest by membership of the id in the seen set as of
call time: the returned "new" list and the already-seen remainder are
disjoint, together they are a permutation of the id-filtered input, only the
new part is returned, and it preserves the input's relative order (it is a
sublist of the input). -/
theorem find_new_jobs_partition (st : StoreState) (jobs : List Job) :
    (find_new_jobs st jobs).1
        = (jobs.filter jobIdTruthy).filter
            (fun j => !(st.seen.contains (getIdStr j)))
    ∧ ((find_new_jobs st jobs).1 ++
        (jobs.filter jobIdTruthy).filter
          (fun j => st.seen.contains (getIdStr j))).Perm
        (jobs.filter jobIdTruthy)
    ∧ (∀ j, j ∈ (find_new_jobs st jobs).1 →
        j ∉ (jobs.filter jobIdTruthy).filter
              (fun j => st.seen.contains (getIdStr j)))
    ∧ List.Sublist (find_new_jobs st jobs).1 jobs := by
  have hfil : (find_new_jobs st jobs).1
      = (jobs.filter jobIdTruthy).filter
          (fun j => !(st.seen.contains (getIdStr j))) := by
    rw [find_new_jobs_fst, List.filter_filter]
    exact List.filter_congr (fun j _ => by
      rw [isNewJob_eq]
      exact (Bool.and_comm _ _).symm)
  refine ⟨hfil, ?_, ?_, ?_⟩
  · rw [hfil]
    have hperm := List.filter_append_perm
      (fun j => !(st.seen.contains (getIdStr j))) (jobs.filter jobIdTruthy)
    simpa only [Bool.not_not] using hperm
  · intro j hj hj2
    rw [hfil] at hj
    have h1 := (List.mem_filter.mp hj).2
    have h2 := (List.mem_filter.mp hj2).2
    rw [h2] at h1
    cases h1
  · rw [find_new_jobs_fst]
    exact List.filter_sublist jobs

/-- Claim C10: membership is tested against the seen set as of the start of
the `find_new_jobs` call and the new ids are committed only once at the end,
so duplicates of a not-yet-seen id are all returned as new (the output count
of such a posting equals its input count), the id is handed to the store that
many times, and the committed set is the call-time set merged with the
returned postings' ids. -/
theorem find_new_jobs_duplicates (st : StoreState) (jobs : List Job) (j : Job)
    (h1 : jobIdTruthy j = true)
    (h2 : st.seen.contains (getIdStr j) = false) :
    (find_new_jobs st jobs).1.count j = jobs.count j
    ∧ jobs.count j ≤
        (((find_new_jobs st jobs).1.filterMap Job.id).count (getIdStr j))
    ∧ (find_new_jobs st jobs).2.seen =
        updateSeen st.seen ((find_new_jobs st jobs).1.filterMap Job.id) := by
  have hnew : isNewJob st j = true := by
    rw [isNewJob_eq, h1, h2]
    rfl
  have hcount : (find_new_jobs st jobs).1.count j = jobs.count j := by
    rw [find_new_jobs_fst]
    exact List.count_filter hnew
  refine ⟨hcount, ?_, ?_⟩
  · calc jobs.count j = (find_new_jobs st jobs).1.count j := hcount.symm
      _ ≤ ((find_new_jobs st jobs).1.filterMap Job.id).count (getIdStr j) :=
        count_le_count_filterMap_id _ j _ (jobId_of_truthy h1)
  · rw [find_new_jobs_snd_seen, find_new_jobs_fst]

/-- Witness for C10 at a concrete input: a batch holding the same unseen
posting twice returns it twice. -/
theorem find_new_jobs_duplicates_witness :
    (find_new_jobs ⟨[], []⟩
        [⟨some "x", "p"⟩, ⟨some "x", "p"⟩]).1.count ⟨some "x", "p"⟩ = 2
    ∧ (find_new_jobs ⟨[], []⟩ [⟨some "x", "p"⟩, ⟨some "x", "p"⟩]).2.seen =
        updateSeen [] ((find_new_jobs ⟨[], []⟩
          [⟨some "x", "p"⟩, ⟨some "x", "p"⟩]).1.filterMap Job.id) := by
  have h := find_new_jobs_duplicates ⟨[], []⟩
    [⟨some "x", "p"⟩, ⟨some "x", "p"⟩] ⟨some "x", "p"⟩ (by decide) (by decide)
  refine ⟨?_, h.2.2⟩
  rw [h.1]
  decide

/-- Claim C2 counterexample: a non-empty batch with unique ids whose single
id is already in the seen set makes the FIRST `find_new_jobs` call return the
empty list, contradicting the claim that the first call is always non-empty. -/
theorem find_new_jobs_idempotent_cex :
    (find_new_jobs ⟨["gh_acme_1"], []⟩ [⟨some "gh_acme_1", "p"⟩]).1 = [] := by
  decide

/-- Claim C2 (amended): for a non-empty batch in which every posting carries
a truthy id, the ids are pairwise distinct, and no id is in the seen set at
the first call, `find_new_jobs` returns a non-empty result the first time and
the empty list when repeated on the resulting store. -/
theorem find_new_jobs_idempotent (st : StoreState) (jobs : List Job)
    (hne : jobs ≠ [])
    (htruthy : ∀ j ∈ jobs, jobIdTruthy j = true)
    (huniq : (jobs.map getIdStr).Nodup)
    (hunseen : ∀ j ∈ jobs, st.seen.contains (getIdStr j) = false) :
    (find_new_jobs st jobs).1 ≠ []
    ∧ (find_new_jobs (find_new_jobs st jobs).2 jobs).1 = [] := by
  have hall : ∀ j ∈ jobs, isNewJob st j = true := fun j hj => by
    rw [isNewJob_eq, htruthy j hj, hunseen j hj]
    rfl
  have hfst : (find_new_jobs st jobs).1 = jobs := by
    rw [find_new_jobs_fst]
    exact List.filter_eq_self.mpr hall
  constructor
  · rw [hfst]
    exact hne
  · rw [find_new_jobs_fst]
    rw [List.filter_eq_nil_iff]
    intro j hj
    have hid := jobId_of_truthy (htruthy j hj)
    have hmem : getIdStr j ∈ (find_new_jobs st jobs).2.seen := by
      rw [find_new_jobs_snd_seen]
      apply mem_updateSeen_of_mem_ids
      rw [List.filter_eq_self.mpr hall]
      exact List.mem_filterMap.mpr ⟨j, hj, hid⟩
    intro hnew
    rw [isNewJob_eq] at hnew
    rw [containsStr_iff.mpr hmem] at hnew
    simp [htruthy j hj] at hnew

/-- Witness for C2 at a concrete input: two fresh postings are returned on
the first call and none on the second. -/
theorem find_new_jobs_idempotent_witness :
    (find_new_jobs ⟨[], []⟩
        [⟨some "job1", "a"⟩, ⟨some "job2", "b"⟩]).1 ≠ []
    ∧ (find_new_jobs (find_new_jobs ⟨[], []⟩
        [⟨some "job1", "a"⟩, ⟨some "job2", "b"⟩]).2
        [⟨some "job1", "a"⟩, ⟨some "job2", "b"⟩]).1 = [] :=
  find_new_jobs_idempotent ⟨[], []⟩
    [⟨some "job1", "a"⟩, ⟨some "job2", "b"⟩]
    (by decide) (by decide) (by decide) (by decide)

/-- Claim C4 counterexample: the classifier returns `include = true` for
"Mars Colony" — "colony" contains the bare US indicators "co" and "ny" as
substrings — contradicting the claim's asserted value `include = false`. -/
theorem is_us_location_mars_cex : is_us_location "Mars Colony" = true := by
  decide

/-- Claim C4 (amended): the classifier is a pure, deterministic function of
its input string; "San Francisco, CA" is included, "London, UK" excluded, the
empty string included, and "Mars Colony" is INCLUDED (not excluded as
claimed), because the two-letter US indicators "co" and "ny" match inside
"colony". -/
theorem is_us_location_literals :
    (∀ l1 l2 : String, l1 = l2 → is_us_location l1 = is_us_location l2)
    ∧ is_us_location "San Francisco, CA" = true
    ∧ is_us_location "London, UK" = false
    ∧ is_us_location "" = true
    ∧ is_us_location "Mars Colony" = true :=
  ⟨fun _ _ h => congrArg is_us_location h,
   by decide, by decide, by decide, by decide⟩

/-- Witness for C4's determinism hypothesis at a concrete input. -/
theorem is_us_location_literals_witness :
    is_us_location "Austin, TX" = is_us_location "Austin, TX"
    ∧ is_us_location "" = true :=
  ⟨is_us_location_literals.1 "Austin, TX" "Austin, TX" rfl,
   is_us_location_literals.2.2.2.1⟩

/-- Claim C7: whenever some non-US indicator occurs (case-insensitively) in
the location string, the classifier returns `include = false` — the non-US
list is checked first and short-circuits, so this holds even when a US
indicator occurs in the same string. -/
theorem is_us_location_non_us_priority (location : String)
    (h : non_us_indicators.any
          (fun ind => strContains (lowerStr location) ind) = true) :
    is_us_location location = false := by
  have hne : ¬ location = "" := by
    intro he
    rw [he] at h
    exact absurd h (by decide)
  unfold is_us_location
  rw [if_neg hne]
  show (if non_us_indicators.any
          (fun ind => strContains (lowerStr location) ind) then false
        else if us_indicators.any
          (fun ind => strContains (lowerStr location) ind) then true
        else false) = false
  rw [if_pos h]

/-- Witness for C7 at a concrete input containing BOTH a US indicator
("new york") and a non-US indicator ("london"): excluded. -/
theorem is_us_location_non_us_priority_witness :
    non_us_indicators.any
      (fun ind => strContains (lowerStr "New York / London") ind) = true
    ∧ is_us_location "New York / London" = false :=
  ⟨by decide, is_us_location_non_us_priority "New York / London" (by decide)⟩

/-- Claim C9: `add_seen_ids` merges the given ids into the in-memory set;
the set's size strictly increases exactly when some given id was not already
present; in that case (and only then) one full synchronous rewrite of the
whole merged set is appended to the backing file, and when every given id was
already present neither the set nor the file changes. -/
theorem add_seen_ids_persistence (ids : List String) (st : StoreState) :
    (add_seen_ids ids st).seen = updateSeen st.seen ids
    ∧ ((∃ x ∈ ids, x ∉ st.seen) ↔
        st.seen.length < (updateSeen st.seen ids).length)
    ∧ ((∃ x ∈ ids, x ∉ st.seen) →
        (add_seen_ids ids st).writes = updateSeen st.seen ids :: st.writes)
    ∧ ((∀ x ∈ ids, x ∈ st.seen) →
        (add_seen_ids ids st).writes = st.writes
        ∧ (add_seen_ids ids st).seen = st.seen) := by
  refine ⟨add_seen_ids_seen ids st, ⟨?_, ?_⟩, ?_, ?_⟩
  · rintro ⟨x, hx, hns⟩
    exact length_lt_updateSeen hx hns
  · intro hlt
    by_contra hno
    push_neg at hno
    rw [updateSeen_of_all_mem hno] at hlt
    exact absurd hlt (Nat.lt_irrefl _)
  · rintro ⟨x, hx, hns⟩
    exact add_seen_ids_writes_of_lt (length_lt_updateSeen hx hns)
  · intro hmem
    have hup := updateSeen_of_all_mem hmem
    refine ⟨add_seen_ids_writes_of_not_lt ?_, ?_⟩
    · rw [hup]
      exact Nat.lt_irrefl _
    · rw [add_seen_ids_seen, hup]

/-- Witness for C9 at concrete inputs: a genuinely new id rewrites the file
with the full merged set; an already-present id writes nothing and leaves the
set unchanged. -/
theorem add_seen_ids_persistence_witness :
    (add_seen_ids ["b"] ⟨["a"], []⟩).writes = updateSeen ["a"] ["b"] :: []
    ∧ (add_seen_ids ["a"] ⟨["a"], []⟩).writes = []
    ∧ (add_seen_ids ["a"] ⟨["a"], []⟩).seen = ["a"] := by
  refine ⟨?_, ?_, ?_⟩
  · exact (add_seen_ids_persistence ["b"] ⟨["a"], []⟩).2.2.1
      ⟨"b", by decide, by decide⟩
  · exact ((add_seen_ids_persistence ["a"] ⟨["a"], []⟩).2.2.2
      (by decide)).1
  · exact ((add_seen_ids_persistence ["a"] ⟨["a"], []⟩).2.2.2
      (by decide)).2

/-- Claim C8 counterexample: a storage file whose content is valid JSON but
not an object (for instance the file containing just a JSON list) makes
Python's `data.get` raise `AttributeError`, which is outside the caught
classes `json.JSONDecodeError` and `IOError`, so the exception propagates —
contradicting "never fails / no exception propagates". -/
theorem load_seen_ids_cex :
    load_seen_ids .jsonNonObject = .error .attributeError := rfl

/-- Claim C8 (amended): `load_seen_ids` returns the empty set when the file
is absent, unreadable (IOError) or not parseable as JSON, and the set of
strings under `seen_ids` when the file parses to a JSON object (empty when
the key is missing); but valid JSON that is not an object, or a non-iterable
`seen_ids` value, raises an uncaught exception. -/
theorem load_seen_ids_total :
    load_seen_ids .absent = .ok []
    ∧ load_seen_ids .ioError = .ok []
    ∧ load_seen_ids .invalidJson = .ok []
    ∧ load_seen_ids (.jsonObject none) = .ok []
    ∧ (∀ ids : List String,
        load_seen_ids (.jsonObject (some (.strList ids)))
          = .ok (updateSeen [] ids))
    ∧ load_seen_ids .jsonNonObject = .error .attributeError
    ∧ load_seen_ids (.jsonObject (some .nonIterable)) = .error .typeError :=
  ⟨rfl, rfl, rfl, rfl, fun _ => rfl, rfl, rfl⟩

/-- Claim C6: the greenhouse adapter filters by the location classifier, so
whenever its fetch succeeds every returned posting's location is classified
`include = true`; the lever adapter applies no location filter and returns
exactly one normalized posting per upstream item whenever it succeeds. -/
theorem adapter_location_filter :
    (∀ (b : String) (resp : GhResponse) (ps : List Posting),
        fetch_greenhouse_jobs b resp = .ok ps →
        ∀ p ∈ ps, is_us_location p.location = true)
    ∧ (∀ (c : String) (raws : List LvRawJob) (ps : List Posting),
        fetch_lever_jobs c (.success raws) = .ok ps →
        ps.length = raws.length) := by
  constructor
  · intro b resp ps h
    cases resp with
    | failure =>
      simp only [fetch_greenhouse_jobs] at h
      cases h
      simp
    | success jobs_data =>
      simp only [fetch_greenhouse_jobs] at h
      exact ghMapJobs_ok_us h
  · intro c raws ps h
    simp only [fetch_lever_jobs] at h
    exact lvMapJobs_ok_len h

/-- Witness for C6 at concrete inputs: a successful greenhouse fetch of one
San Francisco item yields only included locations; a successful lever fetch
of one London item yields exactly one posting. -/
theorem adapter_location_filter_witness :
    is_us_location "San Francisco, CA" = true
    ∧ ([{ id := "lv_acme_9", title := "N/A", company := "Acme", url := "",
          location := "London", source := "lever" }] : List Posting).length
        = ([⟨some "9", none, none, some (some "London")⟩] :
            List LvRawJob).length := by
  constructor
  · exact adapter_location_filter.1 "acme"
      (.success (some [⟨some "7", some "Eng",
        some (some "San Francisco, CA"), some "u"⟩]))
      [{ id := "gh_acme_7", title := "Eng", company := "Acme", url := "u",
         location := "San Francisco, CA", source := "greenhouse" }]
      rfl
      { id := "gh_acme_7", title := "Eng", company := "Acme", url := "u",
        location := "San Francisco, CA", source := "greenhouse" }
      (List.mem_singleton.mpr rfl)
  · exact adapter_location_filter.2 "acme"
      [⟨some "9", none, none, some (some "London")⟩]
      [{ id := "lv_acme_9", title := "N/A", company := "Acme", url := "",
         location := "London", source := "lever" }]
      rfl

/-- Claim C3 counterexample: a greenhouse response containing one item with
no native id (whose resolved location "Remote" passes the filter) makes the
adapter raise `KeyError` — the exception escapes the adapter's boundary
instead of the item being skipped. -/
theorem adapter_missing_id_cex :
    fetch_greenhouse_jobs "acme" (.success (some [⟨none, none, none, none⟩]))
      = .error .keyError := rfl

/-- Claim C3 (amended): each adapter catches network/HTTP/decode failures
(`requests.RequestException`, which includes requests' JSON decode error) and
yields the empty sequence; but an individual upstream item lacking a native
id is NOT skipped: the raw id subscript raises `KeyError`, which escapes the
adapter and fails the whole batch — for the greenhouse adapter whenever the
id-less item passes the location filter (an id-less item failing the filter
is skipped by `continue` before the id access), and for the lever adapter
always. -/
theorem adapter_failure_behavior :
    (∀ b : String, fetch_greenhouse_jobs b .failure = .ok [])
    ∧ (∀ c : String, fetch_lever_jobs c .failure = .ok [])
    ∧ (∀ (b : String) (j : GhRawJob) (rest : List GhRawJob),
        j.id = none → is_us_location (ghLocation j) = true →
        fetch_greenhouse_jobs b (.success (some (j :: rest)))
          = .error .keyError)
    ∧ (∀ (c : String) (j : LvRawJob) (rest : List LvRawJob),
        j.id = none →
        fetch_lever_jobs c (.success (j :: rest)) = .error .keyError) := by
  refine ⟨fun _ => rfl, fun _ => rfl, ?_, ?_⟩
  · intro b j rest hid hloc
    show ghMapJobs b (j :: rest) = .error .keyError
    simp [ghMapJobs, hid, hloc]
  · intro c j rest hid
    show lvMapJobs c (j :: rest) = .error .keyError
    simp [lvMapJobs, hid]

/-- Witness for C3 at concrete inputs. -/
theorem adapter_failure_behavior_witness :
    fetch_greenhouse_jobs "acme" .failure = .ok []
    ∧ fetch_lever_jobs "acme" .failure = .ok []
    ∧ fetch_greenhouse_jobs "acme"
        (.success (some [⟨none, some "T", none, none⟩])) = .error .keyError
    ∧ fetch_lever_jobs "acme" (.success [⟨none, some "T", none, none⟩])
        = .error .keyError :=
  ⟨adapter_failure_behavior.1 "acme",
   adapter_failure_behavior.2.1 "acme",
   adapter_failure_behavior.2.2.1 "acme" ⟨none, some "T", none, none⟩ []
     rfl (by decide),
   adapter_failure_behavior.2.2.2 "acme" ⟨none, some "T", none, none⟩ [] rfl⟩

theorem ghId_data (b n : String) :
    (ghId b n).data
      = 'g' :: 'h' :: Char.ofNat 95 :: (b.data ++ Char.ofNat 95 :: n.data) := by
  show ((("gh_".data ++ b.data) ++ "_".data) ++ n.data) = _
  rw [List.append_assoc, List.append_assoc]
  rfl

theorem lvId_data (c n : String) :
    (lvId c n).data
      = 'l' :: 'v' :: Char.ofNat 95 :: (c.data ++ Char.ofNat 95 :: n.data) := by
  show ((("lv_".data ++ c.data) ++ "_".data) ++ n.data) = _
  rw [List.append_assoc, List.append_assoc]
  rfl

/-- Claim C5 counterexample: the prefixing scheme is not injective for
arbitrary source identifiers — the distinct (board, native id) pairs
("a_b", "c") and ("a", "b_c") collide on the identical id "gh_a_b_c". -/
theorem posting_id_scheme_cex :
    ghId "a_b" "c" = ghId "a" "b_c"
    ∧ ¬("a_b" = "a" ∧ "c" = "b_c") := ⟨by decide, by decide⟩

/-- Claim C5 (amended): the normalized posting id is stable across repeated
fetches (a pure function of adapter kind, source identifier and native id);
ids from different adapter kinds are always distinct; and within one adapter
kind, distinct (source identifier, native id) pairs receive distinct ids
PROVIDED the source identifiers contain no underscore — which holds for
every identifier in the shipped configuration, but not for arbitrary
identifiers (see the counterexample). -/
theorem posting_id_scheme :
    (∀ b n b' n' : String, b = b' → n = n' → ghId b n = ghId b' n')
    ∧ (∀ c m c' m' : String, c = c' → m = m' → lvId c m = lvId c' m')
    ∧ (∀ b n c m : String, ghId b n ≠ lvId c m)
    ∧ (∀ b1 n1 b2 n2 : String, Char.ofNat 95 ∉ b1.data →
        Char.ofNat 95 ∉ b2.data → ¬(b1 = b2 ∧ n1 = n2) →
        ghId b1 n1 ≠ ghId b2 n2)
    ∧ (∀ c1 m1 c2 m2 : String, Char.ofNat 95 ∉ c1.data →
        Char.ofNat 95 ∉ c2.data → ¬(c1 = c2 ∧ m1 = m2) →
        lvId c1 m1 ≠ lvId c2 m2)
    ∧ companies.all
        (fun e => !(e.2.2.data.contains (Char.ofNat 95))) = true := by
  refine ⟨fun b n b' n' hb hn => by rw [hb, hn],
          fun c m c' m' hc hm => by rw [hc, hm], ?_, ?_, ?_, by decide⟩
  · intro b n c m heq
    have hd := congrArg String.data heq
    rw [ghId_data, lvId_data] at hd
    injection hd with h1 _
    exact absurd h1 (by decide)
  · intro b1 n1 b2 n2 hu1 hu2 hne heq
    have hd := congrArg String.data heq
    rw [ghId_data, ghId_data] at hd
    injection hd with _ hd
    injection hd with _ hd
    injection hd with _ hd
    obtain ⟨hb, hn⟩ :=
      underscore_split b1.data n1.data b2.data n2.data hu1 hu2 hd
    exact hne ⟨String.ext hb, String.ext hn⟩
  · intro c1 m1 c2 m2 hu1 hu2 hne heq
    have hd := congrArg String.data heq
    rw [lvId_data, lvId_data] at hd
    injection hd with _ hd
    injection hd with _ hd
    injection hd with _ hd
    obtain ⟨hc, hm⟩ :=
      underscore_split c1.data m1.data c2.data m2.data hu1 hu2 hd
    exact hne ⟨String.ext hc, String.ext hm⟩

/-- Witness for C5 at concrete configured identifiers. -/
theorem posting_id_scheme_witness :
    ghId "airbnb" "1" = ghId "airbnb" "1"
    ∧ ghId "airbnb" "1" ≠ lvId "airbnb" "1"
    ∧ ghId "airbnb" "1" ≠ ghId "stripe" "1" :=
  ⟨posting_id_scheme.1 "airbnb" "1" "airbnb" "1" rfl rfl,
   posting_id_scheme.2.2.1 "airbnb" "1" "airbnb" "1",
   posting_id_scheme.2.2.2.1 "airbnb" "1" "stripe" "1"
     (by decide) (by decide) (by decide)⟩

end JobTracker
